import Mathlib

/-!
Verification of the logging / log-archival subsystem of
`gamestonk_terminal/loggers.py`.

Python strings are embedded as `List Char` (written via `String.data` on
literals), so that character-level operations (`str.replace` of single
characters, `str.rstrip`, `readline`) have a direct, provable model.
Filesystem and network effects are made explicit: the session directory is a
record of file lists, uploads and renames are driven by boolean oracles
standing for success/failure of the corresponding blocking calls, and every
`logger.<level>(...)` call is recorded in an output list.
-/

namespace Loggers

/-- The Python string type, embedded character by character. -/
abbrev Str := List Char

/-- The single-quote character `chr 39`. -/
def squote : Char := Char.ofNat 39

/-- The double-quote character `chr 34`. -/
def dquote : Char := Char.ofNat 34

/-- The backtick character `chr 96`. -/
def backtick : Char := Char.ofNat 96

/-- Python `s.replace(old, new)` for a single-character needle `c`:
every occurrence of `c` is replaced by the string `repl`. -/
def replaceChar (c : Char) (repl : Str) : Str → Str
  | [] => []
  | a :: rest =>
      if a = c then repl ++ replaceChar c repl rest
      else a :: replaceChar c repl rest

/-- Python `str.isspace` on the ASCII whitespace characters recognised by
`str.rstrip()`: space, tab, newline, carriage return, vertical tab, form
feed. -/
def isPySpace (c : Char) : Bool :=
  c = ' ' || c = '\t' || c = '\n' || c = '\r' || c = Char.ofNat 11 || c = Char.ofNat 12

/-- Python `str.rstrip()` with no argument: drop trailing whitespace. -/
def pyRstrip (s : Str) : Str :=
  (s.reverse.dropWhile isPySpace).reverse

/-- Python `file.readline()` on the file's full content: the first line,
including its terminating newline when present. -/
def readline : Str → Str
  | [] => []
  | c :: rest => if c = '\n' then [c] else c :: readline rest

/-- A log record, as the formatter sees it: the fields of
`logging.LogRecord` that `CustomFormatterWithExceptions.format` and the
base `logging.Formatter.format` read with `LOGFORMAT`.  `asctime` is the
already-rendered `%(asctime)s` field; `exc_text = []` models an absent /
falsy exception text; `func_name_override` models the optional attribute
of the same name. -/
structure LogRecord where
  levelname : Str
  name : Str
  funcName : Str
  lineno : Nat
  msg : Str
  asctime : Str
  exc_text : Str
  func_name_override : Option Str
deriving DecidableEq

/-- The formatter's `logPrefixDict`: the three context fields captured at
construction plus the `levelname` entry that `format` inserts on each
call (`none` before the first call). -/
structure PrefixDict where
  loggingId : Str
  sessionId : Str
  version : Str
  levelname : Option Str
deriving DecidableEq

/-- Rendering of `LOGPREFIXFORMAT % self.logPrefixDict`:
`"%(levelname)s|%(version)s|%(loggingId)s|%(sessionId)s|"`. -/
def logHeader (d : PrefixDict) : Str :=
  d.levelname.getD [] ++ "|".data ++ d.version ++ "|".data ++ d.loggingId
    ++ "|".data ++ d.sessionId ++ "|".data

/-- Lines 145-147 of `format`: if the record has a `func_name_override`
attribute, overwrite `funcName` with it and force `lineno` to 0. -/
def applyOverride (r : LogRecord) : LogRecord :=
  match r.func_name_override with
  | some f => { r with funcName := f, lineno := 0 }
  | none => r

/-- The base `super().format(record)` with `fmt = LOGFORMAT =
"%(asctime)s|%(name)s|%(funcName)s|%(lineno)s|%(message)s"`: render the
body, and when `record.exc_text` is set append it on a new line (the base
`logging.Formatter.format` adds a newline first unless the body already
ends in one). -/
def superFormat (r : LogRecord) : Str :=
  let base := r.asctime ++ "|".data ++ r.name ++ "|".data ++ r.funcName
    ++ "|".data ++ (toString r.lineno).data ++ "|".data ++ r.msg
  if r.exc_text ≠ [] then
    (if base.getLast? = some '\n' then base else base ++ "\n".data) ++ r.exc_text
  else base

/-- Lines 157-163: the chained `replace` calls applied to the body when
exception text is present: newline becomes `" - "`, tab becomes a space,
carriage return is removed, each quote kind becomes a backtick. -/
def sanitize (s : Str) : Str :=
  replaceChar dquote [backtick]
    (replaceChar squote [backtick]
      (replaceChar '\r' []
        (replaceChar '\t' " ".data
          (replaceChar '\n' " - ".data s))))

/-- The value `format` returns together with the side effects it has: the
updated `logPrefixDict` (the `levelname` entry is written on every call)
and the possibly mutated record. -/
structure FormatResult where
  output : Str
  state : PrefixDict
  record : LogRecord
deriving DecidableEq

/-- Method `CustomFormatterWithExceptions.format` (lines 132-167): apply the
`func_name_override` mutation, render the body with the base formatter,
set the `levelname` prefix entry from the record (first character, `"U"`
when the level name is falsy), and when `record.exc_text` is truthy
overwrite it with `"X"` and sanitize the body; finally prepend the
rendered prefix. -/
def format (d : PrefixDict) (r : LogRecord) : FormatResult :=
  let record := applyOverride r
  let s := superFormat record
  let d := { d with
    levelname := some (if record.levelname ≠ [] then record.levelname.take 1 else "U".data) }
  if record.exc_text ≠ [] then
    let d := { d with levelname := some "X".data }
    let s := sanitize s
    { output := logHeader d ++ s, state := d, record := record }
  else
    { output := logHeader d ++ s, state := d, record := record }

/-! ### Identity store (`get_log_dir`, lines 41-74) -/

/-- The state of the log root that `get_log_dir` reads and writes:
whether the `.logid` sentinel file exists and, when it does, its full
content. -/
structure LogRootState where
  sentinel : Option Str
deriving DecidableEq

/-- The identity part of `get_log_dir` (lines 51-63): if the `.logid`
sentinel is absent, mint a fresh token (`uuid.uuid4()`, here the
parameter `freshUuid`) and append it to the file followed by a newline;
if present, return `readline().rstrip()` of its content.  Returns the
identity together with the updated log-root state. -/
def get_log_dir_identity (freshUuid : Str) (st : LogRootState) : Str × LogRootState :=
  match st.sentinel with
  | none => (freshUuid, { sentinel := some (freshUuid ++ "\n".data) })
  | some content => (pyRstrip (readline content), st)

/-- The reading step as the specification words it (`Modelled from the
spec:` the IdentityStore contract "If present: read first line, strip
trailing newline, return it"), for comparison with the code's
`readline().rstrip()`. -/
def specReadIdentity (content : Str) : Str :=
  let line := readline content
  if line.getLast? = some '\n' then line.dropLast else line

/-! ### Verbosity split and library loggers (`setup_logging`, lines 183-231) -/

/-- Line 189: `verbosity_terminal = floor(cfg.LOGGING_VERBOSITY / 10) * 10`
with Python's true division and `math.floor` taken at exact
rational arithmetic. -/
def verbosity_terminal (v : ℤ) : ℤ := ⌊(v : ℚ) / 10⌋ * 10

/-- Line 190: `verbosity_libraries = ceil(cfg.LOGGING_VERBOSITY / 10) * 10`. -/
def verbosity_libraries (v : ℤ) : ℤ := ⌈(v : ℚ) / 10⌉ * 10

/-- Function `library_loggers(verbosity)` (lines 28-38) records the level applied
to each known third-party logger. -/
def library_loggers (verbosity : ℤ) : List (String × ℤ) :=
  [("requests", verbosity), ("urllib3", verbosity)]

/-- The library-logger levels that `setup_logging` applies (line 224):
`library_loggers(verbosity_libraries)`. -/
def setup_logging_library_levels (v : ℤ) : List (String × ℤ) :=
  library_loggers (verbosity_libraries v)

/-! ### Regex filters (`re.compile(log_filter).search`, lines 256-277) -/

/-- A character class of the rotation regex. -/
abbrev CharClass := Char → Bool

/-- Does the class list match at the head of `s`? -/
def matchesAt : List CharClass → Str → Bool
  | [], _ => true
  | _ :: _, [] => false
  | cl :: cls, c :: cs => cl c && matchesAt cls cs

/-- Python `re.search` for a pattern that is a plain sequence of character
classes: does it match starting at some position of `s`? -/
def searchFixed (cls : List CharClass) : Str → Bool
  | [] => matchesAt cls []
  | c :: rest => matchesAt cls (c :: rest) || searchFixed cls rest

/-- The literal character class `{c}`. -/
def lit (c : Char) : CharClass := fun a => a = c

/-- The digit-range class `[lo-hi]` of the rotation regex. -/
def digitRange (lo hi : Char) : CharClass := fun a => lo ≤ a && a ≤ hi

/-- The default `log_filter`
`r"\.log\.20[2-3][0-9]-[0-2][0-9]-[0-3][0-9]_[0-2][0-9]*"` (line 258).
The trailing `[0-9]*` can match the empty string, so `re.search` succeeds
exactly when the fixed part up to `[0-2]` matches somewhere; the pattern
is therefore embedded as that fixed class sequence. -/
def defaultLogFilter : List CharClass :=
  [lit '.', lit 'l', lit 'o', lit 'g', lit '.', lit '2', lit '0',
   digitRange '2' '3', digitRange '0' '9', lit '-',
   digitRange '0' '2', digitRange '0' '9', lit '-',
   digitRange '0' '3', digitRange '0' '9', lit '_',
   digitRange '0' '2']

/-- The `log_filter=r"\.log"` that `setup_file_logger` passes (line 82):
a literal `.log` anywhere in the path. -/
def dotLogFilter : List CharClass :=
  [lit '.', lit 'l', lit 'o', lit 'g']

/-! ### Archive uploader (`upload_archive_logs_s3`, lines 256-287, and
`upload_file_to_s3`, lines 234-253) -/

/-- Severity of a recorded `logger` call. -/
inductive LogLevel
  | debug
  | info
  | error
deriving DecidableEq

/-- The session directory as `upload_archive_logs_s3` sees it:
`sessionFiles` are the immediate file entries (names), `archiveExists` /
`archiveFiles` the `archive` subdirectory. -/
structure FS where
  sessionFiles : List String
  archiveExists : Bool
  archiveFiles : List String
deriving DecidableEq

/-- Function `upload_file_to_s3` (lines 234-253): attempt the S3 upload; a
`ClientError` (the oracle `uploadOk` returning `false`) is caught and
logged with `logger.exception`, and the function returns normally either
way.  Returns whether the upload succeeded and the log entries
produced. -/
def upload_file_to_s3 (uploadOk : String → Bool) (fname : String) :
    Bool × List (LogLevel × String) :=
  if uploadOk fname then (true, [])
  else (false, [(LogLevel.error, "ClientError uploading " ++ fname)])

/-- The observable outcome of `upload_archive_logs_s3`: the final
directory state, the uploads attempted in order, and the log entries
emitted in order. -/
structure ArchiveResult where
  fs : FS
  uploadsAttempted : List String
  logs : List (LogLevel × String)
deriving DecidableEq

/-- One iteration of the `for log_file, archived_file in
log_files.values()` loop (lines 279-284): call `upload_file_to_s3`,
then attempt the rename into `archive/` regardless of the upload's
outcome; a rename failure (oracle `renameOk` returning `false`) is
caught and logged, leaving the file in place. -/
def archiveStep (uploadOk renameOk : String → Bool)
    (acc : FS × List String × List (LogLevel × String)) (n : String) :
    FS × List String × List (LogLevel × String) :=
  let fs := acc.1
  let ups := acc.2.1
  let lgs := acc.2.2
  let r := upload_file_to_s3 uploadOk n
  if renameOk n then
    ({ fs with sessionFiles := fs.sessionFiles.erase n,
               archiveFiles := fs.archiveFiles ++ [n] },
     ups ++ [n], lgs ++ r.2)
  else
    (fs, ups ++ [n],
     lgs ++ r.2 ++ [(LogLevel.error, "Cannot archive file: " ++ n)])

/-- Function `upload_archive_logs_s3` (lines 256-287).  `allow` is
`gtff.ALLOW_LOG_COLLECTION`; `dirPath` the session directory path (the
regex is searched against `str(file)`, the full path); `log_filter` the
compiled pattern; `uploadOk` / `renameOk` the success oracles for the
S3 call and the local rename.  When consent is off the function only
logs the skip.  Otherwise: create `archive/` if missing, collect the
matching immediate entries (`directory.iterdir()`, which also yields the
`archive` subdirectory itself), then upload and rename each. -/
def upload_archive_logs_s3 (allow : Bool) (dirPath : String)
    (log_filter : List CharClass) (uploadOk renameOk : String → Bool)
    (fs : FS) : ArchiveResult :=
  if allow then
    let createLogs : List (LogLevel × String) :=
      if fs.archiveExists then []
      else [(LogLevel.debug, "The new archive directory is created!")]
    let fs1 : FS := { fs with archiveExists := true }
    let entries := fs1.sessionFiles ++ ["archive"]
    let matched := entries.filter
      (fun n => searchFixed log_filter (dirPath ++ "/" ++ n).data)
    let res := matched.foldl (archiveStep uploadOk renameOk)
      (fs1, [], createLogs ++ [(LogLevel.info, "Start uploading Logs")])
    { fs := res.1, uploadsAttempted := res.2.1,
      logs := res.2.2 ++ [(LogLevel.info, "Logs uploaded")] }
  else
    { fs := fs, uploadsAttempted := [],
      logs := [(LogLevel.info, "Logs not allowed to be collected")] }

/-- Function `setup_file_logger` (lines 77-94), the parts the claims are about:
run the pre-flight `upload_archive_logs_s3` with `log_filter=r"\.log"`
over the session directory, and only afterwards choose the new log file
path `<sessionDir>/<startTime>.log` for the time-rotating handler.
Returns the pre-flight outcome and the new sink path. -/
def setup_file_logger (allow : Bool) (dirPath : String)
    (uploadOk renameOk : String → Bool) (fs : FS) (startTime : ℕ) :
    ArchiveResult × String :=
  let preflight := upload_archive_logs_s3 allow dirPath dotLogFilter uploadOk renameOk fs
  (preflight, dirPath ++ "/" ++ toString startTime ++ ".log")

/-! ### Helper lemmas -/

/-- Membership after a single-character replacement: an element of the
result is either from the replacement string or an unreplaced element of
the input. -/
theorem mem_replaceChar {a c : Char} {repl : Str} :
    ∀ {l : Str}, a ∈ replaceChar c repl l → a ∈ repl ∨ (a ∈ l ∧ a ≠ c)
  | [], h => by simp [replaceChar] at h
  | b :: rest, h => by
      by_cases hb : b = c
      · rw [replaceChar, if_pos hb, List.mem_append] at h
        rcases h with h | h
        · exact Or.inl h
        · rcases mem_replaceChar h with h' | ⟨h1, h2⟩
          · exact Or.inl h'
          · exact Or.inr ⟨List.mem_cons_of_mem _ h1, h2⟩
      · rw [replaceChar, if_neg hb, List.mem_cons] at h
        rcases h with h | h
        · subst h; exact Or.inr ⟨List.mem_cons_self _ _, hb⟩
        · rcases mem_replaceChar h with h' | ⟨h1, h2⟩
          · exact Or.inl h'
          · exact Or.inr ⟨List.mem_cons_of_mem _ h1, h2⟩

/-- One of the five characters the sanitizer is meant to remove. -/
def badChar (c : Char) : Prop :=
  c = '\n' ∨ c = '\t' ∨ c = '\r' ∨ c = squote ∨ c = dquote

instance : DecidablePred badChar := fun c => by
  unfold badChar; infer_instance

/-- A string free of newline, tab, carriage return, single quote and
double quote. -/
def cleanStr (s : Str) : Prop := ∀ c ∈ s, ¬ badChar c

instance : DecidablePred cleanStr := fun s => by
  unfold cleanStr; infer_instance

theorem cleanStr_append {s t : Str} (hs : cleanStr s) (ht : cleanStr t) :
    cleanStr (s ++ t) := by
  intro a ha
  rcases List.mem_append.mp ha with h | h
  · exact hs a h
  · exact ht a h

/-- The chain of `replace` calls leaves none of the five characters. -/
theorem sanitize_clean (s : Str) : cleanStr (sanitize s) := by
  intro a ha
  unfold sanitize at ha
  rcases mem_replaceChar ha with g5 | ⟨g4, h5⟩
  · simp at g5; subst g5; decide
  rcases mem_replaceChar g4 with g3 | ⟨g2, h4⟩
  · simp at g3; subst g3; decide
  rcases mem_replaceChar g2 with g1 | ⟨g0, h3⟩
  · simp at g1
  rcases mem_replaceChar g0 with gs | ⟨gt, h2⟩
  · simp at gs; subst gs; decide
  rcases mem_replaceChar gt with gm | ⟨_, h1⟩
  · have hm : a = ' ' ∨ a = '-' ∨ a = ' ' := by simpa using gm
    rcases hm with h | h | h <;> rw [h] <;> decide
  · intro hb
    rcases hb with hb | hb | hb | hb | hb
    · exact h1 hb
    · exact h2 hb
    · exact h3 hb
    · exact h4 hb
    · exact h5 hb

theorem applyOverride_exc_text (r : LogRecord) :
    (applyOverride r).exc_text = r.exc_text := by
  rcases r with ⟨lv, n, f, ln, m, a, e, o⟩
  cases o <;> rfl

theorem applyOverride_levelname (r : LogRecord) :
    (applyOverride r).levelname = r.levelname := by
  rcases r with ⟨lv, n, f, ln, m, a, e, o⟩
  cases o <;> rfl

theorem applyOverride_of_none {r : LogRecord} (h : r.func_name_override = none) :
    applyOverride r = r := by
  rcases r with ⟨lv, n, f, ln, m, a, e, o⟩
  cases o
  · rfl
  · simp at h

/-- The uploads attempted by the archiving loop are exactly the matched
files handed to it, in order, whatever the upload and rename oracles
answer. -/
theorem archive_loop_uploads (uploadOk renameOk : String → Bool) :
    ∀ (l : List String) (acc : FS × List String × List (LogLevel × String)),
      (l.foldl (archiveStep uploadOk renameOk) acc).2.1 = acc.2.1 ++ l
  | [], acc => by simp
  | n :: ns, acc => by
      rw [List.foldl_cons,
        archive_loop_uploads uploadOk renameOk ns (archiveStep uploadOk renameOk acc n)]
      have hstep : (archiveStep uploadOk renameOk acc n).2.1 = acc.2.1 ++ [n] := by
        by_cases hr : renameOk n <;> simp [archiveStep, hr]
      rw [hstep]
      simp

/-- With consent on, the uploads attempted by `upload_archive_logs_s3`
are exactly the immediate directory entries (including the `archive`
subdirectory entry) whose full path matches the filter. -/
theorem archive_uploadsAttempted_eq (dirPath : String) (filt : List CharClass)
    (uploadOk renameOk : String → Bool) (fs : FS) :
    (upload_archive_logs_s3 true dirPath filt uploadOk renameOk fs).uploadsAttempted =
      (fs.sessionFiles ++ ["archive"]).filter
        (fun n => searchFixed filt (dirPath ++ "/" ++ n).data) := by
  unfold upload_archive_logs_s3
  simp [archive_loop_uploads]

/-- Matching a list of literal character classes at the head of a string
is exactly being an initial segment of it. -/
theorem matchesAt_lits (l : List Char) :
    ∀ s : Str, matchesAt (l.map lit) s = true ↔ ∃ t, s = l ++ t := by
  induction l with
  | nil => intro s; simp [matchesAt]
  | cons c cs ih =>
      intro s
      cases s with
      | nil =>
          simp [matchesAt]
      | cons a as =>
          rw [List.map_cons]
          show (lit c a && matchesAt (cs.map lit) as) = true ↔ _
          rw [Bool.and_eq_true]
          constructor
          · rintro ⟨h1, h2⟩
            have hac : a = c := by simpa [lit] using h1
            rcases (ih as).mp h2 with ⟨t, ht⟩
            exact ⟨t, by rw [hac, ht]; rfl⟩
          · rintro ⟨t, ht⟩
            injection ht with h1 h2
            refine ⟨by simp [lit, h1], (ih as).mpr ⟨t, h2⟩⟩

/-- Python `re.search` with a pattern of literal classes succeeds exactly
when the pattern occurs as a contiguous substring. -/
theorem searchFixed_lits (l : List Char) :
    ∀ s : Str, searchFixed (l.map lit) s = true ↔ ∃ pre post, s = pre ++ l ++ post := by
  intro s
  induction s with
  | nil =>
      rw [searchFixed, matchesAt_lits]
      constructor
      · rintro ⟨t, ht⟩
        exact ⟨[], t, ht⟩
      · rintro ⟨pre, post, h⟩
        have h' : pre ++ (l ++ post) = [] := by rw [← List.append_assoc]; exact h.symm
        rcases List.append_eq_nil.mp h' with ⟨_, hrest⟩
        exact ⟨post, hrest.symm⟩
  | cons a as ih =>
      rw [searchFixed, Bool.or_eq_true, matchesAt_lits, ih]
      constructor
      · rintro (⟨t, ht⟩ | ⟨pre, post, h⟩)
        · exact ⟨[], t, ht⟩
        · exact ⟨a :: pre, post, by rw [h]; rfl⟩
      · rintro ⟨pre, post, h⟩
        cases pre with
        | nil => exact Or.inl ⟨post, by simpa using h⟩
        | cons b pre' =>
            have h' : a :: as = b :: (pre' ++ l ++ post) := by simpa using h
            injection h' with h1 h2
            exact Or.inr ⟨pre', post, h2⟩

/-- The `r"\.log"` filter matches a full path exactly when `.log` occurs
in it as a substring. -/
theorem searchFixed_dotLog (s : Str) :
    searchFixed dotLogFilter s = true ↔ ∃ pre post, s = pre ++ ".log".data ++ post := by
  rw [show dotLogFilter = (".log".data).map lit from rfl]
  exact searchFixed_lits ".log".data s

/-- Unfolding of `format` on a record that carries exception text. -/
theorem format_eq_of_exc (d : PrefixDict) (r : LogRecord)
    (h : r.exc_text ≠ []) :
    format d r =
      FormatResult.mk
        ("X".data ++ "|".data ++ d.version ++ "|".data ++ d.loggingId
          ++ "|".data ++ d.sessionId ++ "|".data
          ++ sanitize (superFormat (applyOverride r)))
        { d with levelname := some "X".data }
        (applyOverride r) := by
  have h' : (applyOverride r).exc_text ≠ [] := by
    rw [applyOverride_exc_text]; exact h
  simp only [format]
  rw [if_pos h']
  simp [logHeader, List.append_assoc]

/-- Unfolding of `format` on a record with no exception text. -/
theorem format_eq_of_noexc (d : PrefixDict) (r : LogRecord) (h : r.exc_text = []) :
    format d r =
      FormatResult.mk
        ((if r.levelname ≠ [] then r.levelname.take 1 else "U".data)
          ++ "|".data ++ d.version ++ "|".data ++ d.loggingId ++ "|".data
          ++ d.sessionId ++ "|".data ++ superFormat (applyOverride r))
        { d with
            levelname := some (if r.levelname ≠ [] then r.levelname.take 1 else "U".data) }
        (applyOverride r) := by
  have h' : (applyOverride r).exc_text = [] := by
    rw [applyOverride_exc_text]; exact h
  simp only [format]
  rw [if_neg (by simp [h'])]
  simp [logHeader, applyOverride_levelname, List.append_assoc]

/-! ### Concrete fixtures -/

/-- A three-file session directory: two rotated logs and the current
active log. -/
def fsThree : FS :=
  { sessionFiles := ["a.log.2023-01-01_00", "b.log.2023-01-02_00", "current.log"]
    archiveExists := false
    archiveFiles := [] }

/-- A two-rotated-file session directory. -/
def fsTwo : FS :=
  { sessionFiles := ["a.log.2023-01-01_00", "b.log.2023-01-02_00"]
    archiveExists := true
    archiveFiles := [] }

/-- A session directory holding one rotated log. -/
def fsOne : FS :=
  { sessionFiles := ["f.log.2023-01-01_00"]
    archiveExists := true
    archiveFiles := [] }

/-- A session directory holding only the previous session's active log,
which carries no rotation date suffix. -/
def fsPlain : FS :=
  { sessionFiles := ["1600000000.log"]
    archiveExists := false
    archiveFiles := [] }

/-- A formatter context with clean identity, session and version. -/
def dCtx : PrefixDict :=
  { loggingId := "92ae5045".data
    sessionId := "1700000000".data
    version := "sha:deadbeef".data
    levelname := none }

/-- The same context with a stale `levelname` entry left by an earlier
`format` call. -/
def dStale : PrefixDict := { dCtx with levelname := some "Z".data }

/-- An ERROR record without exception text. -/
def rError : LogRecord :=
  { levelname := "ERROR".data
    name := "gamestonk_terminal".data
    funcName := "call_sushi".data
    lineno := 43
    msg := "boom".data
    asctime := "2023-06-01T00:00:00+0000".data
    exc_text := []
    func_name_override := none }

/-- An INFO record whose exception text holds a newline, a tab, a
carriage return and both quote kinds. -/
def rExc : LogRecord :=
  { rError with
      levelname := "INFO".data
      exc_text := ['T', 'r', 'a', 'c', 'e', '\n', '\t', '\r', squote, dquote, 'x'] }

/-- A record with an empty (falsy) level name and no exception text. -/
def rNoLevel : LogRecord := { rError with levelname := [] }

/-- A record with a lower-case custom level name. -/
def rLower : LogRecord := { rError with levelname := "trace".data }

/-- A record carrying a `func_name_override` attribute. -/
def rOverride : LogRecord :=
  { rError with func_name_override := some "callback".data }

/-! ### Claims -/

/-- **C7.** When the consent flag (`gtff.ALLOW_LOG_COLLECTION`) is false,
`upload_archive_logs_s3` changes nothing on the filesystem, attempts no
upload, and only logs the info-level skip message. -/
theorem archive_noop_when_disallowed (dirPath : String) (filt : List CharClass)
    (uploadOk renameOk : String → Bool) (fs : FS) :
    upload_archive_logs_s3 false dirPath filt uploadOk renameOk fs =
      ArchiveResult.mk fs []
        [(LogLevel.info, "Logs not allowed to be collected")] :=
  rfl

/-- **C5.** On a session directory holding `a.log.2023-01-01_00`,
`b.log.2023-01-02_00` and `current.log`, with consent on, successful
uploads and renames, and the default rotation filter, exactly the two
date-suffixed files are uploaded (in discovery order) and moved into
`archive/`; `current.log` stays in the session directory untouched. -/
theorem archive_rotated_selection_example :
    (upload_archive_logs_s3 true "logs/92ae5045" defaultLogFilter
        (fun _ => true) (fun _ => true) fsThree).uploadsAttempted
      = ["a.log.2023-01-01_00", "b.log.2023-01-02_00"] ∧
    (upload_archive_logs_s3 true "logs/92ae5045" defaultLogFilter
        (fun _ => true) (fun _ => true) fsThree).fs
      = FS.mk ["current.log"] true
          ["a.log.2023-01-01_00", "b.log.2023-01-02_00"] := by
  decide

/-- **C1 counterexample.** With consent on and an upload that fails
(`ClientError`), the matched file is nevertheless renamed into
`archive/` — it is not left in place in the session directory as the
claim states (`upload_file_to_s3` swallows the error and the rename at
line 282 runs unconditionally). -/
theorem upload_failure_file_still_archived :
    (upload_archive_logs_s3 true "logs/92ae5045" defaultLogFilter
        (fun _ => false) (fun _ => true) fsOne).fs.sessionFiles = [] ∧
    (upload_archive_logs_s3 true "logs/92ae5045" defaultLogFilter
        (fun _ => false) (fun _ => true) fsOne).fs.archiveFiles
      = ["f.log.2023-01-01_00"] ∧
    (LogLevel.error, "ClientError uploading f.log.2023-01-01_00")
      ∈ (upload_archive_logs_s3 true "logs/92ae5045" defaultLogFilter
          (fun _ => false) (fun _ => true) fsOne).logs := by
  decide

/-- **C1 (amended).** With two matched rotated files and the first
upload failing: the `ClientError` is logged and processing continues to
the second file, both uploads are attempted, and — rename being
independent of the upload outcome — both files are renamed into
`archive/`, including the one whose upload failed. -/
theorem archive_continue_on_upload_failure :
    (upload_archive_logs_s3 true "logs/92ae5045" defaultLogFilter
        (fun n => n != "a.log.2023-01-01_00") (fun _ => true) fsTwo).uploadsAttempted
      = ["a.log.2023-01-01_00", "b.log.2023-01-02_00"] ∧
    (upload_archive_logs_s3 true "logs/92ae5045" defaultLogFilter
        (fun n => n != "a.log.2023-01-01_00") (fun _ => true) fsTwo).fs
      = FS.mk [] true ["a.log.2023-01-01_00", "b.log.2023-01-02_00"] ∧
    (LogLevel.error, "ClientError uploading a.log.2023-01-01_00")
      ∈ (upload_archive_logs_s3 true "logs/92ae5045" defaultLogFilter
          (fun n => n != "a.log.2023-01-01_00") (fun _ => true) fsTwo).logs := by
  decide

/-- **C3 counterexample.** The pre-flight run by `setup_file_logger`
uses `log_filter=r"\.log"`, so a file without the date-stamped rotation
suffix — here the previous session's active log `1600000000.log`, which
the default rotation pattern does not match — is a candidate and is
uploaded. -/
theorem preflight_uploads_unrotated_file :
    (setup_file_logger true "logs/92ae5045" (fun _ => true) (fun _ => true)
        fsPlain 1700000000).1.uploadsAttempted = ["1600000000.log"] ∧
    searchFixed defaultLogFilter "logs/92ae5045/1600000000.log".data = false := by
  decide

/-- **C3 (amended).** With the file handler configured, the pre-flight
runs before the new time-rotating sink path `<sessionDir>/<startEpoch>.log`
is chosen, but its candidate set is not restricted to rotated files: it
is driven by `log_filter=r"\.log"`, so the candidates are exactly the
immediate entries of the session directory whose full path contains
`.log` as a substring — date-suffixed or not. -/
theorem setup_file_logger_preflight_scope (dirPath : String)
    (uploadOk renameOk : String → Bool) (fs : FS) (t : ℕ) :
    (setup_file_logger true dirPath uploadOk renameOk fs t).2
        = dirPath ++ "/" ++ toString t ++ ".log" ∧
    (setup_file_logger true dirPath uploadOk renameOk fs t).1.uploadsAttempted
        = (fs.sessionFiles ++ ["archive"]).filter
            (fun n => searchFixed dotLogFilter (dirPath ++ "/" ++ n).data) ∧
    (∀ s : Str, searchFixed dotLogFilter s = true ↔
        ∃ pre post, s = pre ++ ".log".data ++ post) :=
  ⟨rfl, archive_uploadsAttempted_eq dirPath dotLogFilter uploadOk renameOk fs,
    searchFixed_dotLog⟩

theorem readline_append_newline {u : Str} (h : '\n' ∉ u) :
    readline (u ++ ['\n']) = u ++ ['\n'] := by
  induction u with
  | nil => rfl
  | cons c cs ih =>
      rw [List.cons_append, readline]
      have hc : c ≠ '\n' := fun hc => h (hc ▸ List.mem_cons_self c cs)
      rw [if_neg hc, ih (fun hm => h (List.mem_cons_of_mem c hm))]

theorem pyRstrip_append_newline (u : Str) :
    pyRstrip (u ++ ['\n']) = pyRstrip u := by
  unfold pyRstrip
  rw [List.reverse_append]
  have hrev : (['\n'] : Str).reverse ++ u.reverse = '\n' :: u.reverse := rfl
  rw [hrev, List.dropWhile_cons, if_pos (by decide)]

/-- **C6 counterexample.** On a sentinel whose first line carries
trailing whitespace before the newline, the code's
`readline().rstrip()` strips that whitespace too, so the identity read
back is not merely the first line with the trailing newline removed. -/
theorem identity_read_not_newline_strip :
    (get_log_dir_identity "u".data
        (LogRootState.mk (some ['a', 'b', 'c', ' ', '\n']))).1
      ≠ specReadIdentity ['a', 'b', 'c', ' ', '\n'] := by
  decide

/-- **C6 (amended).** From an empty log root, two calls of the identity
store return the same value (the first freshly minted token, provided —
as for a UUID — it has no trailing whitespace and no newline), the
sentinel exists after the first call, and any later call with a sentinel
present returns the first line with all trailing whitespace stripped
(Python `rstrip`), which equals newline-stripping whenever the line has
no other trailing whitespace. -/
theorem identity_stable_and_read (u1 u2 content : Str)
    (h1 : pyRstrip u1 = u1) (h2 : '\n' ∉ u1) :
    (get_log_dir_identity u1 (LogRootState.mk none)).1 = u1 ∧
    (get_log_dir_identity u2 (get_log_dir_identity u1 (LogRootState.mk none)).2).1 = u1 ∧
    (get_log_dir_identity u1 (LogRootState.mk none)).2.sentinel ≠ none ∧
    (get_log_dir_identity u2 (LogRootState.mk (some content))).1
      = pyRstrip (readline content) := by
  refine ⟨rfl, ?_, by simp [get_log_dir_identity], rfl⟩
  show pyRstrip (readline (u1 ++ "\n".data)) = u1
  rw [show ("\n".data : Str) = ['\n'] from rfl, readline_append_newline h2,
    pyRstrip_append_newline, h1]

/-- Witness for the amended C6 at a concrete token and sentinel. -/
theorem identity_stable_and_read_witness :
    (get_log_dir_identity "4f9d".data (LogRootState.mk none)).1 = "4f9d".data ∧
    (get_log_dir_identity "beef".data
        (get_log_dir_identity "4f9d".data (LogRootState.mk none)).2).1 = "4f9d".data ∧
    (get_log_dir_identity "4f9d".data (LogRootState.mk none)).2.sentinel ≠ none ∧
    (get_log_dir_identity "beef".data (LogRootState.mk (some "abc\n".data))).1
      = pyRstrip (readline "abc\n".data) :=
  identity_stable_and_read "4f9d".data "beef".data "abc\n".data (by decide) (by decide)

/-- **C8.** `setup_logging` splits the combined verbosity into the
terminal verbosity `floor(v/10)*10` and the library verbosity
`ceil(v/10)*10`, applies the latter to the third-party HTTP client
loggers `requests` and `urllib3`, and the two formulas coincide with
integer floor division: `10*(v fdiv 10)` and `-(10*((-v) fdiv 10))`. -/
theorem setup_logging_verbosity_split (v : ℤ) :
    verbosity_terminal v = ⌊(v : ℚ) / 10⌋ * 10 ∧
    verbosity_libraries v = ⌈(v : ℚ) / 10⌉ * 10 ∧
    setup_logging_library_levels v =
      [("requests", verbosity_libraries v), ("urllib3", verbosity_libraries v)] ∧
    verbosity_terminal v = v / 10 * 10 ∧
    verbosity_libraries v = -((-v) / 10) * 10 := by
  refine ⟨rfl, rfl, rfl, ?_, ?_⟩
  · unfold verbosity_terminal
    rw [show ((10 : ℚ)) = ((10 : ℕ) : ℚ) by norm_num,
      Rat.floor_intCast_div_natCast]
    norm_num
  · unfold verbosity_libraries
    rw [show ⌈(v : ℚ) / 10⌉ = -⌊-((v : ℚ) / 10)⌋ by rw [Int.floor_neg]; ring,
      show -((v : ℚ) / 10) = ((-v : ℤ) : ℚ) / ((10 : ℕ) : ℚ) by push_cast; ring,
      Rat.floor_intCast_div_natCast]
    norm_num

/-- **C2.** For every record carrying exception text, and any context
whose identity, session and version fields are themselves free of the
five characters, the formatted line contains no newline, tab, carriage
return, single quote or double quote, and it starts with the level
character `X`. -/
theorem format_exception_output_clean (d : PrefixDict) (r : LogRecord)
    (hexc : r.exc_text ≠ []) (hv : cleanStr d.version)
    (hid : cleanStr d.loggingId) (hsid : cleanStr d.sessionId) :
    cleanStr (format d r).output ∧ (format d r).output.take 1 = "X".data := by
  rw [format_eq_of_exc d r hexc]
  refine ⟨?_, rfl⟩
  refine cleanStr_append
    (cleanStr_append
      (cleanStr_append
        (cleanStr_append
          (cleanStr_append
            (cleanStr_append
              (cleanStr_append (cleanStr_append ?_ ?_) hv) ?_) hid) ?_) hsid) ?_)
    (sanitize_clean _) <;> decide

/-- Witness for C2 at a concrete context and a record whose exception
text holds a newline, a tab, a carriage return and both quote kinds. -/
theorem format_exception_output_clean_witness :
    cleanStr (format dCtx rExc).output ∧ (format dCtx rExc).output.take 1 = "X".data :=
  format_exception_output_clean dCtx rExc (by decide) (by decide) (by decide) (by decide)

/-- **C9 counterexample.** For a record with the lower-case custom level
name `trace` and no exception text, the prefix level character is the
first character of the level name as-is (`t`), not uppercased (`T`):
line 150 takes `record.levelname[0]` without upper-casing. -/
theorem levelchar_not_uppercased :
    (format dCtx rLower).output.take 1 = "t".data ∧
    (format dCtx rLower).output.take 1 ≠ (rLower.levelname.take 1).map Char.toUpper := by
  decide

/-- **C9 (amended).** For a record with no exception text the formatted
line is the first character of the level name, as-is (for the all-caps
standard names like ERROR this equals the uppercased first character, so
an ERROR record's output begins `E|version|identity|sessionId|`),
followed by `|version|identity|sessionId|` and the body; whenever the
record carries exception text the level character is `X` instead
(exception wins over level). -/
theorem format_levelchar (d : PrefixDict) (r : LogRecord) :
    (r.exc_text = [] → r.levelname ≠ [] →
      (format d r).output = r.levelname.take 1 ++ "|".data ++ d.version ++ "|".data
        ++ d.loggingId ++ "|".data ++ d.sessionId ++ "|".data
        ++ superFormat (applyOverride r)) ∧
    (r.exc_text ≠ [] →
      (format d r).output = "X".data ++ "|".data ++ d.version ++ "|".data
        ++ d.loggingId ++ "|".data ++ d.sessionId ++ "|".data
        ++ sanitize (superFormat (applyOverride r))) := by
  constructor
  · intro h hn
    rw [format_eq_of_noexc d r h]
    simp [hn]
  · intro h
    rw [format_eq_of_exc d r h]

/-- Witness for the amended C9: an ERROR record yields an `E` prefix and
an exception record yields `X`. -/
theorem format_levelchar_witness :
    (format dCtx rError).output = rError.levelname.take 1 ++ "|".data ++ dCtx.version
      ++ "|".data ++ dCtx.loggingId ++ "|".data ++ dCtx.sessionId ++ "|".data
      ++ superFormat (applyOverride rError) ∧
    (format dCtx rExc).output = "X".data ++ "|".data ++ dCtx.version ++ "|".data
      ++ dCtx.loggingId ++ "|".data ++ dCtx.sessionId ++ "|".data
      ++ sanitize (superFormat (applyOverride rExc)) ∧
    (format dCtx rError).output.take 1 = "E".data :=
  ⟨(format_levelchar dCtx rError).1 (by decide) (by decide),
   (format_levelchar dCtx rExc).2 (by decide),
   by decide⟩

/-- **C10.** A record with an empty (falsy) level name and no exception
text gets `U` as the prefix level character (lines 149-152), a fallback
the specification's prefix-character rule does not mention. -/
theorem format_empty_level_U (d : PrefixDict) (r : LogRecord)
    (h1 : r.levelname = []) (h2 : r.exc_text = []) :
    (format d r).output = "U".data ++ "|".data ++ d.version ++ "|".data
      ++ d.loggingId ++ "|".data ++ d.sessionId ++ "|".data
      ++ superFormat (applyOverride r) := by
  rw [format_eq_of_noexc d r h2]
  simp [h1]

/-- Witness for C10 at a concrete record with an empty level name. -/
theorem format_empty_level_U_witness :
    (format dCtx rNoLevel).output = "U".data ++ "|".data ++ dCtx.version ++ "|".data
      ++ dCtx.loggingId ++ "|".data ++ dCtx.sessionId ++ "|".data
      ++ superFormat (applyOverride rNoLevel) :=
  format_empty_level_U dCtx rNoLevel (by decide) (by decide)

/-- **C4 counterexample.** `format` does not leave the record unchanged:
on a record carrying `func_name_override` it overwrites `funcName` with
the override and zeroes `lineno` (lines 145-147). -/
theorem format_mutates_record :
    (format dCtx rOverride).record ≠ rOverride ∧
    (format dCtx rOverride).record.funcName = "callback".data ∧
    (format dCtx rOverride).record.lineno = 0 := by
  decide

/-- **C4 (amended).** The output of `format` is a function of the record
and the three context fields only: it is unaffected by the mutable
`levelname` entry that earlier calls leave in `logPrefixDict` (it is
overwritten before use), so two calls with equal records and equal
context triples yield equal output; the record is returned unchanged
exactly when it carries no `func_name_override`, and otherwise
`funcName` and `lineno` are overwritten. -/
theorem format_output_context_only (d1 d2 : PrefixDict) (r : LogRecord)
    (hid : d1.loggingId = d2.loggingId) (hsid : d1.sessionId = d2.sessionId)
    (hv : d1.version = d2.version) :
    (format d1 r).output = (format d2 r).output ∧
    (format d1 r).record = (format d2 r).record ∧
    (r.func_name_override = none → (format d1 r).record = r) := by
  by_cases h : r.exc_text = []
  · rw [format_eq_of_noexc d1 r h, format_eq_of_noexc d2 r h]
    exact ⟨by rw [hid, hsid, hv], rfl, fun ho => applyOverride_of_none ho⟩
  · rw [format_eq_of_exc d1 r h, format_eq_of_exc d2 r h]
    exact ⟨by rw [hid, hsid, hv], rfl, fun ho => applyOverride_of_none ho⟩

/-- Witness for the amended C4: a stale `levelname` entry does not
change the output, and a record without override is returned
unchanged. -/
theorem format_output_context_only_witness :
    (format dCtx rError).output = (format dStale rError).output ∧
    (format dCtx rError).record = (format dStale rError).record ∧
    (format dCtx rError).record = rError :=
  ⟨(format_output_context_only dCtx dStale rError rfl rfl rfl).1,
   (format_output_context_only dCtx dStale rError rfl rfl rfl).2.1,
   (format_output_context_only dCtx dStale rError rfl rfl rfl).2.2 rfl⟩

end Loggers
